import Mathlib

/-!
# Verification of the room-view controller in `quickstart/src/joinroom.js`

A shallow embedding of the presentation-state machine of the Twilio video
quickstart client: the mutable globals `activeParticipant` and
`isActiveParticipantPinned`, the DOM surfaces they drive (participant
thumbnail containers, the shared main video element), and the event handlers
that update them (`setActiveParticipant`, `setCurrentActiveParticipant`, the
thumbnail click handler, `attachTrack`, `detachTrack`,
`participantConnected`, `participantDisconnected`, `joinRoom`, and the
`disconnected` teardown handler).

JavaScript objects are modelled structurally: a `Participant` is identified
by its `sid`; jQuery operations on an empty selection are no-ops; reading a
property of `undefined` surfaces as `JsError.typeError` in an `Except`.
-/

/-- The kind of a media track: `track.kind` is the string audio or video. -/
inductive TrackKind where
  | audio
  | video
deriving DecidableEq, Repr

/-- A media track. `hasSetPriority` models whether the `setPriority` method
is present on the track object (the click handler guards on it). -/
structure Track where
  id : Nat
  kind : TrackKind
  hasSetPriority : Bool
deriving DecidableEq, Repr

/-- A `TrackPublication`: its `track` is `none` until the publication is
subscribed to. -/
structure TrackPublication where
  kind : TrackKind
  track : Option Track
deriving DecidableEq, Repr

/-- A local or remote participant: a stable `sid`, a display `identity`, and
the map of published tracks (modelled as a list in map-iteration order). -/
structure Participant where
  sid : Nat
  identity : String
  tracks : List TrackPublication
deriving DecidableEq, Repr

/-- `participant.videoTracks`: the video subset of the participant's
publications, in map order. -/
def Participant.videoTracks (p : Participant) : List TrackPublication :=
  p.tracks.filter fun pub => pub.kind == TrackKind.video

/-- The joined room: the local participant, the remote participants, and the
currently reported dominant speaker (`null` when none). -/
structure Room where
  localParticipant : Participant
  participants : List Participant
  dominantSpeaker : Option Participant
deriving DecidableEq, Repr

/-- The inline `opacity` style of a media element: the code writes either
the string 0 (hidden) or the empty string (cleared, visible). -/
inductive Opacity where
  | zero
  | blank
deriving DecidableEq, Repr

/-- An HTML media element: `attached` is the id of the track whose stream is
its `srcObject` (`none` when `srcObject` is null), plus its inline opacity. -/
structure MediaEl where
  attached : Option Nat
  opacity : Opacity
deriving DecidableEq, Repr

/-- `track.attach(el)`: sets the element's `srcObject` to the track's
stream. Attaching an already-attached track replaces it with itself. -/
def Track.attachEl (t : Track) (el : MediaEl) : MediaEl :=
  { el with attached := some t.id }

/-- `track.detach(el)`: removes the track's stream from the element when it
is the one attached; otherwise the element is untouched. -/
def Track.detachEl (t : Track) (el : MediaEl) : MediaEl :=
  if el.attached = some t.id then { el with attached := none } else el

/-- `el.srcObject = null`. -/
def MediaEl.clearSrc (el : MediaEl) : MediaEl :=
  { el with attached := none }

/-- The thumbnail container `div` created by `setupParticipantContainer`
for one participant: its `id` is the sid, its `data-identity` attribute, the
presence of the active and pinned CSS classes, and its audio and video
child media elements. -/
structure Container where
  sid : Nat
  dataIdentity : String
  activeClass : Bool
  pinnedClass : Bool
  audioEl : MediaEl
  videoEl : MediaEl
deriving DecidableEq, Repr

/-- The DOM surfaces the controller writes: the list of participant
containers inside `div#participants` (in append order), the shared main
video element `$activeVideo`, and the `data-identity` attribute of the main
active-participant div. -/
structure Dom where
  containers : List Container
  activeVideo : MediaEl
  activeLabel : String
deriving DecidableEq, Repr

/-- jQuery update of the container selected by sid: a no-op when no such
container exists, exactly like an operation on an empty jQuery set. -/
def Dom.updateContainer (d : Dom) (sid : Nat) (f : Container → Container) : Dom :=
  { d with containers := d.containers.map fun c => if c.sid = sid then f c else c }

/-- jQuery lookup `$(div#sid, $participants).get(0)`. -/
def Dom.findContainer (d : Dom) (sid : Nat) : Option Container :=
  d.containers.find? fun c => c.sid == sid

/-- The value passed to `track.setPriority`: `none` models the JavaScript
null (reset to the publish-time priority). -/
inductive PriorityLevel where
  | low
  | standard
  | high
deriving DecidableEq, Repr

/-- A priority request: `none` is the JavaScript null. -/
abbrev PrioritySetting := Option PriorityLevel

/-- A JavaScript runtime error, e.g. reading a property of undefined. -/
inductive JsError where
  | typeError
deriving DecidableEq, Repr

/-- The process-wide mutable state of the controller: the two presentation
globals `activeParticipant` and `isActiveParticipantPinned`, the DOM, the
last requested priority per track id, the set of stopped tracks, and which
window and document lifecycle handlers are installed. -/
structure AppState where
  activeParticipant : Option Participant
  isActiveParticipantPinned : Bool
  dom : Dom
  priorities : List (Nat × PrioritySetting)
  stoppedTracks : List Nat
  onbeforeunload : Bool
  onpagehide : Bool
  onvisibilitychange : Bool
deriving DecidableEq, Repr

/-- Record a `track.setPriority(priority)` call in the priorities map. -/
def setTrackPriority (id : Nat) (priority : PrioritySetting)
    (ps : List (Nat × PrioritySetting)) : List (Nat × PrioritySetting) :=
  match ps with
  | [] => [(id, priority)]
  | (i, q) :: rest =>
    if i = id then (i, priority) :: rest else (i, q) :: setTrackPriority id priority rest

/-- `setVideoPriority(participant, priority)`: for each of the
participant's video publications whose track exists and has a `setPriority`
method, request the given priority. -/
def setVideoPriority (participant : Participant) (priority : PrioritySetting)
    (s : AppState) : AppState :=
  { s with
    priorities := participant.videoTracks.foldl (fun ps pub =>
      match pub.track with
      | some track =>
        if track.hasSetPriority then setTrackPriority track.id priority ps else ps
      | none => ps) s.priorities }

/-- The DOM effect of `setActiveParticipant(participant)`, as a function of
the previous `activeParticipant` global and the pin flag: demote the
previous active participant (drop its active and pinned classes, detach its
first video track from the main surface and hide the surface), then promote
the new one (mark its container active — and pinned when the pin flag is
set — attach its first video track to the main surface and show it, and
update the displayed identity). -/
def setActiveParticipantDom (participant : Participant) (prevActive : Option Participant)
    (pinned : Bool) (dom : Dom) : Dom :=
  let d :=
    match prevActive with
    | some prev =>
      let d := dom.updateContainer prev.sid fun c =>
        { c with activeClass := false, pinnedClass := false }
      let activeTrack := prev.videoTracks.head?.bind fun pub => pub.track
      match activeTrack with
      | some t =>
        let el := t.detachEl d.activeVideo
        { d with activeVideo := { el with opacity := Opacity.zero } }
      | none => d
    | none => dom
  let d := d.updateContainer participant.sid fun c =>
    let c := { c with activeClass := true }
    if pinned then { c with pinnedClass := true } else c
  let track := participant.videoTracks.head?.bind fun pub => pub.track
  let d :=
    match track with
    | some t =>
      let el := t.attachEl d.activeVideo
      { d with activeVideo := { el with opacity := Opacity.blank } }
    | none => d
  { d with activeLabel := participant.identity }

/-- `setActiveParticipant(participant)`: update the `activeParticipant`
global and apply the corresponding DOM effect. -/
def setActiveParticipant (participant : Participant) (s : AppState) : AppState :=
  { s with
    activeParticipant := some participant
    dom := setActiveParticipantDom participant s.activeParticipant
      s.isActiveParticipantPinned s.dom }

/-- `setCurrentActiveParticipant(room)`: the dominant speaker when one is
reported, else the local participant. -/
def setCurrentActiveParticipant (room : Room) (s : AppState) : AppState :=
  setActiveParticipant (room.dominantSpeaker.getD room.localParticipant) s

/-- The click handler installed by `setupParticipantContainer` on a
participant's container. When the clicked participant is the pinned active
one: reset its video priority, clear the pin flag, and recompute the active
participant from the dominant-speaker rule. Otherwise: when some participant
is pinned, first reset that participant's priority (reading the
`activeParticipant` global — a type error if it were null), then request
high priority on the clicked participant, set the pin flag, and make it the
active participant. -/
def containerClick (participant : Participant) (room : Room)
    (s : AppState) : Except JsError AppState :=
  if s.activeParticipant = some participant ∧ s.isActiveParticipantPinned then
    let s := setVideoPriority participant none s
    let s := { s with isActiveParticipantPinned := false }
    Except.ok (setCurrentActiveParticipant room s)
  else
    match s.isActiveParticipantPinned, s.activeParticipant with
    | true, none => Except.error JsError.typeError
    | true, some active =>
      let s := setVideoPriority active none s
      let s := setVideoPriority participant (some PriorityLevel.high) s
      let s := { s with isActiveParticipantPinned := true }
      Except.ok (setActiveParticipant participant s)
    | false, _ =>
      let s := setVideoPriority participant (some PriorityLevel.high) s
      let s := { s with isActiveParticipantPinned := true }
      Except.ok (setActiveParticipant participant s)

/-- `setupParticipantContainer(participant, room)`: append a fresh container
for the participant (audio and video elements start hidden and empty) and
install the click handler (modelled as the `Event.click` transition). -/
def setupParticipantContainer (participant : Participant) (_room : Room)
    (s : AppState) : AppState :=
  let container : Container :=
    { sid := participant.sid
      dataIdentity := participant.identity
      activeClass := false
      pinnedClass := false
      audioEl := { attached := none, opacity := Opacity.zero }
      videoEl := { attached := none, opacity := Opacity.zero } }
  { s with dom := { s.dom with containers := s.dom.containers ++ [container] } }

/-- The effect of `attachTrack` on the matching media element of the
thumbnail container: clear its opacity and attach the track. -/
def attachUpd (track : Track) (c : Container) : Container :=
  match track.kind with
  | TrackKind.audio =>
    let el := { c.audioEl with opacity := Opacity.blank }
    { c with audioEl := track.attachEl el }
  | TrackKind.video =>
    let el := { c.videoEl with opacity := Opacity.blank }
    { c with videoEl := track.attachEl el }

/-- `attachTrack(track, participant)`: show and fill the matching media
element of the participant's thumbnail (a no-op when the container is
absent: `track.attach(undefined)` makes a fresh element never inserted into
the document), and, when the track is a video track of the active
participant, also attach it to the main surface and show it. -/
def attachTrack (track : Track) (participant : Participant)
    (s : AppState) : AppState :=
  let d := s.dom.updateContainer participant.sid (attachUpd track)
  let d :=
    if track.kind = TrackKind.video ∧ s.activeParticipant = some participant then
      let el := track.attachEl d.activeVideo
      { d with activeVideo := { el with opacity := Opacity.blank } }
    else d
  { s with dom := d }

/-- The effect of `detachTrack` on the matching media element of the
thumbnail container: hide it, detach the track, and null `srcObject`. -/
def detachUpd (track : Track) (c : Container) : Container :=
  match track.kind with
  | TrackKind.audio =>
    let el := { c.audioEl with opacity := Opacity.zero }
    { c with audioEl := (track.detachEl el).clearSrc }
  | TrackKind.video =>
    let el := { c.videoEl with opacity := Opacity.zero }
    { c with videoEl := (track.detachEl el).clearSrc }

/-- `detachTrack(track, participant)`: hide and empty the matching media
element of the participant's thumbnail, and, when the track is a video track
of the active participant, also detach it from the main surface. When the
thumbnail media element is absent, `mediaEl.srcObject = null` is a
TypeError on undefined. -/
def detachTrack (track : Track) (participant : Participant)
    (s : AppState) : Except JsError AppState :=
  match s.dom.findContainer participant.sid with
  | none => Except.error JsError.typeError
  | some _ =>
    let d := s.dom.updateContainer participant.sid (detachUpd track)
    let d :=
      if track.kind = TrackKind.video ∧ s.activeParticipant = some participant then
        let el := (track.detachEl d.activeVideo).clearSrc
        { d with activeVideo := { el with opacity := Opacity.zero } }
      else d
    Except.ok { s with dom := d }

/-- `trackPublished(publication, participant)`: attach immediately when the
publication is already subscribed. -/
def trackPublished (publication : TrackPublication) (participant : Participant)
    (s : AppState) : AppState :=
  match publication.track with
  | some track => attachTrack track participant s
  | none => s

/-- `participantConnected(participant, room)`: set up the container, then
handle each already-published publication. -/
def participantConnected (participant : Participant) (room : Room)
    (s : AppState) : AppState :=
  let s := setupParticipantContainer participant room s
  participant.tracks.foldl (fun s pub => trackPublished pub participant s) s

/-- `participantDisconnected(participant, room)`: when the disconnected
participant was the pinned active participant, clear the pin flag and
recompute the active participant; always remove its container. -/
def participantDisconnected (participant : Participant) (room : Room)
    (s : AppState) : AppState :=
  let s :=
    if s.activeParticipant = some participant ∧ s.isActiveParticipantPinned then
      let s := { s with isActiveParticipantPinned := false }
      setCurrentActiveParticipant room s
    else s
  { s with dom :=
      { s.dom with containers := s.dom.containers.filter fun c => c.sid != participant.sid } }

/-- What `joinRoom` builds before returning its promise: the state after
the synchronous setup, and the saved `localVideoTrack` closure variable. -/
structure JoinSetup where
  state : AppState
  localVideoTrack : Option Track
deriving DecidableEq, Repr

/-- `joinRoom` after `connect` resolves: read the first entry of the local
participant's `videoTracks` map without a guard (a TypeError when the map is
empty, before any container or handler is set up), handle the local
participant's media, the media of the remote participants already in the
room, set the current active participant, and install the window and
document lifecycle handlers. -/
def joinRoom (isMobile : Bool) (room : Room) (s0 : AppState) :
    Except JsError JoinSetup :=
  match room.localParticipant.videoTracks.head? with
  | none => Except.error JsError.typeError
  | some pub =>
    let localVideoTrack := pub.track
    let s := participantConnected room.localParticipant room s0
    let s := room.participants.foldl (fun s p => participantConnected p room s) s
    let s := setCurrentActiveParticipant room s
    let s := { s with onbeforeunload := true }
    let s :=
      if isMobile then { s with onpagehide := true, onvisibilitychange := true } else s
    Except.ok { state := s, localVideoTrack := localVideoTrack }

/-- An error delivered with the room's `disconnected` event (a Twilio error
code); absent on an explicit leave. -/
abbrev TwilioError := Nat

/-- The body of the `disconnected` handler once the saved local video
track is known to exist: stop it, run `participantDisconnected` for the
local participant and then for every remote participant, and null the main
surface's `srcObject`. -/
def teardownState (room : Room) (t : Track) (s : AppState) : AppState :=
  let s := { s with stoppedTracks := s.stoppedTracks ++ [t.id] }
  let s := participantDisconnected room.localParticipant room s
  let s := room.participants.foldl (fun s p => participantDisconnected p room s) s
  { s with dom := { s.dom with activeVideo := s.dom.activeVideo.clearSrc } }

/-- The `disconnected` handler — the single teardown path for both an
explicit leave and an SDK error: clear the window and document handlers,
stop the saved local video track (a TypeError were it null) and run the
rest of the teardown, then reject the `joinRoom` promise with the error
when one was delivered, else resolve it. -/
def roomDisconnected (isMobile : Bool) (room : Room)
    (localVideoTrack : Option Track) (error : Option TwilioError)
    (s : AppState) : Except JsError (AppState × Except TwilioError Unit) :=
  let s := { s with onbeforeunload := false }
  let s :=
    if isMobile then { s with onpagehide := false, onvisibilitychange := false } else s
  match localVideoTrack with
  | none => Except.error JsError.typeError
  | some t =>
    let s := teardownState room t s
    match error with
    | some e => Except.ok (s, Except.error e)
    | none => Except.ok (s, Except.ok ())

/-- The value of the module-level globals before `joinRoom` runs. -/
def initialAppState : AppState :=
  { activeParticipant := none
    isActiveParticipantPinned := false
    dom := { containers := []
             activeVideo := { attached := none, opacity := Opacity.blank }
             activeLabel := "" }
    priorities := []
    stoppedTracks := []
    onbeforeunload := false
    onpagehide := false
    onvisibilitychange := false }

/-- The user-visible and SDK-driven events whose handlers touch the
presentation state: a click on a participant's container, a
dominant-speaker change carrying the new `room.dominantSpeaker`, and a
remote participant's disconnection. -/
inductive Event where
  | click (p : Participant)
  | dominantSpeakerChanged (ds : Option Participant)
  | participantDisconnected (p : Participant)
deriving DecidableEq, Repr

/-- Is this a dominant-speaker-changed event? -/
def Event.isDsChanged : Event → Bool
  | Event.dominantSpeakerChanged _ => true
  | _ => false

/-- The room object together with the controller's state. -/
structure SysState where
  room : Room
  app : AppState
deriving DecidableEq, Repr

/-- One event dispatch. The SDK mutates the room object before emitting:
`dominantSpeakerChanged` fires with `room.dominantSpeaker` already updated,
and `participantDisconnected` with the participant already removed from
`room.participants`. The dominant-speaker handler recomputes the active
participant only when no participant is pinned. -/
def step (e : Event) (s : SysState) : Except JsError SysState :=
  match e with
  | Event.click p =>
    (containerClick p s.room s.app).map fun a => { s with app := a }
  | Event.dominantSpeakerChanged ds =>
    let room := { s.room with dominantSpeaker := ds }
    let app :=
      if s.app.isActiveParticipantPinned then s.app
      else setCurrentActiveParticipant room s.app
    Except.ok { room := room, app := app }
  | Event.participantDisconnected p =>
    let room :=
      { s.room with participants := s.room.participants.filter fun q => q.sid != p.sid }
    Except.ok { room := room, app := participantDisconnected p room s.app }

/-- Dispatch a list of events in order, stopping at the first error. -/
def run (events : List Event) (s : SysState) : Except JsError SysState :=
  match events with
  | [] => Except.ok s
  | e :: rest =>
    match step e s with
    | Except.ok s' => run rest s'
    | Except.error err => Except.error err

/-- The dominant-speaker rule for the active participant: the global equals
the room's current dominant speaker when one is reported, else the local
participant. -/
def DsRule (s : SysState) : Prop :=
  s.app.activeParticipant = some (s.room.dominantSpeaker.getD s.room.localParticipant)

/-- The pin invariant: whenever the pin flag is set, some participant is
recorded as active (the pinned one). -/
def PinInv (s : SysState) : Prop :=
  s.app.isActiveParticipantPinned = true → s.app.activeParticipant ≠ none

/-- Modelled from the spec (§4.1 Pinning), for comparison with the click
handler: if the clicked participant is already pinned, unpin — clear
`isActiveParticipantPinned`, request the reset (normal/standard, i.e. null)
priority on its video track, recompute the active participant via the
dominant-speaker rule; else pin it — if another participant was previously
pinned, first reset that one's priority, then request high priority on the
newly pinned participant's video track, set it active, set the pin flag. -/
def clickPinToggleSpec (participant : Participant) (room : Room)
    (s : AppState) : AppState :=
  if s.isActiveParticipantPinned ∧ s.activeParticipant = some participant then
    setCurrentActiveParticipant room
      { setVideoPriority participant none s with isActiveParticipantPinned := false }
  else
    let s :=
      match s.isActiveParticipantPinned, s.activeParticipant with
      | true, some prev => setVideoPriority prev none s
      | _, _ => s
    setActiveParticipant participant
      { setVideoPriority participant (some PriorityLevel.high) s with
        isActiveParticipantPinned := true }

/-! ### Concrete instances used to witness the theorems -/

/-- A video track published by the local participant. -/
def videoTrackA : Track :=
  { id := 10, kind := TrackKind.video, hasSetPriority := true }

/-- A video track published by remote participant B. -/
def videoTrackB : Track :=
  { id := 20, kind := TrackKind.video, hasSetPriority := true }

/-- An audio track published by remote participant B. -/
def audioTrackB : Track :=
  { id := 21, kind := TrackKind.audio, hasSetPriority := true }

/-- A video track published by remote participant C. -/
def videoTrackC : Track :=
  { id := 30, kind := TrackKind.video, hasSetPriority := true }

/-- The local participant of the sample room. -/
def partA : Participant :=
  { sid := 1, identity := "alice"
    tracks := [{ kind := TrackKind.video, track := some videoTrackA }] }

/-- A remote participant with one audio and one video track. -/
def partB : Participant :=
  { sid := 2, identity := "bob"
    tracks := [{ kind := TrackKind.audio, track := some audioTrackB },
               { kind := TrackKind.video, track := some videoTrackB }] }

/-- A second remote participant. -/
def partC : Participant :=
  { sid := 3, identity := "carol"
    tracks := [{ kind := TrackKind.video, track := some videoTrackC }] }

/-- A local participant who has published no video track (audio only). -/
def partNoVideo : Participant :=
  { sid := 4, identity := "dave"
    tracks := [{ kind := TrackKind.audio
                 track := some { id := 40, kind := TrackKind.audio, hasSetPriority := true } }] }

/-- A sample three-party room, no dominant speaker yet. -/
def demoRoom : Room :=
  { localParticipant := partA, participants := [partB, partC], dominantSpeaker := none }

/-- A room containing only a local participant with a video track. -/
def soloRoom : Room :=
  { localParticipant := partA, participants := [], dominantSpeaker := none }

/-- A room whose local participant has no video track. -/
def noVideoRoom : Room :=
  { localParticipant := partNoVideo, participants := [], dominantSpeaker := none }

/-- The container `setupParticipantContainer` creates for a participant. -/
def containerFor (p : Participant) : Container :=
  { sid := p.sid, dataIdentity := p.identity
    activeClass := false, pinnedClass := false
    audioEl := { attached := none, opacity := Opacity.zero }
    videoEl := { attached := none, opacity := Opacity.zero } }

/-- A state of the sample room after joining: containers for all three
participants, the local participant active and unpinned. -/
def demoState : AppState :=
  { initialAppState with
    activeParticipant := some partA
    dom := { containers := [containerFor partA, containerFor partB, containerFor partC]
             activeVideo := { attached := some videoTrackA.id, opacity := Opacity.blank }
             activeLabel := "alice" } }

/-- The sample state with participant B pinned as the active participant. -/
def demoStatePinnedB : AppState :=
  { demoState with activeParticipant := some partB, isActiveParticipantPinned := true }

/-- The sample state with participant B active but not pinned. -/
def demoStateActiveB : AppState :=
  { demoState with activeParticipant := some partB }

/-! ## Basic facts about the state operations -/

/-- The sids of the containers currently in the DOM, in order. -/
def sidsOf (d : Dom) : List Nat :=
  d.containers.map fun c => c.sid

theorem sidsOf_updateContainer (d : Dom) (sid : Nat) (f : Container → Container)
    (hf : ∀ c, (f c).sid = c.sid) :
    sidsOf (d.updateContainer sid f) = sidsOf d := by
  show (d.containers.map fun c => if c.sid = sid then f c else c).map (fun c => c.sid)
      = d.containers.map fun c => c.sid
  induction d.containers with
  | nil => rfl
  | cons c l ih =>
    simp only [List.map_cons, ih]
    congr 1
    by_cases h : c.sid = sid
    · rw [if_pos h, hf]
    · rw [if_neg h]

theorem findContainer_updateContainer (d : Dom) (sid : Nat) (f : Container → Container)
    (hf : ∀ c, (f c).sid = c.sid) :
    (d.updateContainer sid f).findContainer sid = (d.findContainer sid).map f := by
  show ((d.containers.map fun c => if c.sid = sid then f c else c).find? fun c => c.sid == sid)
      = (d.containers.find? fun c => c.sid == sid).map f
  induction d.containers with
  | nil => rfl
  | cons c l ih =>
    simp only [List.map_cons, List.find?]
    by_cases h : c.sid = sid
    · have h2 : (c.sid == sid) = true := beq_iff_eq.mpr h
      rw [if_pos h, hf, h2]
      rfl
    · have h2 : (c.sid == sid) = false := by simp [h]
      rw [if_neg h, h2]
      exact ih

theorem updateContainer_updateContainer (d : Dom) (sid : Nat) (f g : Container → Container)
    (hg : ∀ c, (g c).sid = c.sid) :
    (d.updateContainer sid g).updateContainer sid f
      = d.updateContainer sid fun c => f (g c) := by
  have key : ∀ l : List Container,
      ((l.map fun c => if c.sid = sid then g c else c).map
        fun c => if c.sid = sid then f c else c)
      = l.map fun c => if c.sid = sid then f (g c) else c := by
    intro l
    induction l with
    | nil => rfl
    | cons c l ih =>
      simp only [List.map_cons, ih]
      congr 1
      by_cases h : c.sid = sid
      · rw [if_pos h, if_pos h, if_pos (show (g c).sid = sid by rw [hg]; exact h)]
      · rw [if_neg h, if_neg h, if_neg h]
  simp only [Dom.updateContainer]
  rw [key d.containers]

theorem setVideoPriority_activeParticipant (p : Participant) (pr : PrioritySetting)
    (s : AppState) :
    (setVideoPriority p pr s).activeParticipant = s.activeParticipant := rfl

theorem setVideoPriority_isPinned (p : Participant) (pr : PrioritySetting) (s : AppState) :
    (setVideoPriority p pr s).isActiveParticipantPinned = s.isActiveParticipantPinned := rfl

theorem setVideoPriority_dom (p : Participant) (pr : PrioritySetting) (s : AppState) :
    (setVideoPriority p pr s).dom = s.dom := rfl

theorem setActiveParticipant_activeParticipant (p : Participant) (s : AppState) :
    (setActiveParticipant p s).activeParticipant = some p := rfl

theorem setActiveParticipant_isPinned (p : Participant) (s : AppState) :
    (setActiveParticipant p s).isActiveParticipantPinned
      = s.isActiveParticipantPinned := rfl

theorem setActiveParticipant_priorities (p : Participant) (s : AppState) :
    (setActiveParticipant p s).priorities = s.priorities := rfl

theorem setActiveParticipant_stoppedTracks (p : Participant) (s : AppState) :
    (setActiveParticipant p s).stoppedTracks = s.stoppedTracks := rfl

theorem setCurrentActiveParticipant_activeParticipant (room : Room) (s : AppState) :
    (setCurrentActiveParticipant room s).activeParticipant
      = some (room.dominantSpeaker.getD room.localParticipant) := rfl

theorem setCurrentActiveParticipant_isPinned (room : Room) (s : AppState) :
    (setCurrentActiveParticipant room s).isActiveParticipantPinned
      = s.isActiveParticipantPinned := rfl

theorem containers_map_sid_updateContainer (d : Dom) (sid : Nat) (f : Container → Container)
    (hf : ∀ c, (f c).sid = c.sid) :
    ((d.updateContainer sid f).containers.map fun c => c.sid)
      = d.containers.map fun c => c.sid :=
  sidsOf_updateContainer d sid f hf

theorem sidsOf_setActiveParticipantDom (p : Participant) (prev : Option Participant)
    (pinned : Bool) (d : Dom) :
    sidsOf (setActiveParticipantDom p prev pinned d) = sidsOf d := by
  have hpro : ∀ c : Container,
      ((let c' := { c with activeClass := true }
        if pinned then { c' with pinnedClass := true } else c') : Container).sid = c.sid := by
    intro c
    cases pinned <;> rfl
  have hdem : ∀ c : Container,
      (({ c with activeClass := false, pinnedClass := false } : Container)).sid = c.sid := by
    intro c
    rfl
  unfold setActiveParticipantDom sidsOf
  cases prev with
  | none =>
    cases hm : p.videoTracks.head?.bind fun pub => pub.track with
    | none =>
      simp only [hm]
      exact containers_map_sid_updateContainer d p.sid _ hpro
    | some t =>
      simp only [hm]
      exact containers_map_sid_updateContainer d p.sid _ hpro
  | some q =>
    cases hm0 : q.videoTracks.head?.bind fun pub => pub.track with
    | none =>
      cases hm : p.videoTracks.head?.bind fun pub => pub.track with
      | none =>
        simp only [hm0, hm]
        rw [containers_map_sid_updateContainer _ p.sid _ hpro,
          containers_map_sid_updateContainer _ q.sid _ hdem]
      | some t =>
        simp only [hm0, hm]
        rw [containers_map_sid_updateContainer _ p.sid _ hpro,
          containers_map_sid_updateContainer _ q.sid _ hdem]
    | some t0 =>
      cases hm : p.videoTracks.head?.bind fun pub => pub.track with
      | none =>
        simp only [hm0, hm]
        rw [containers_map_sid_updateContainer _ p.sid _ hpro,
          containers_map_sid_updateContainer _ q.sid _ hdem]
      | some t =>
        simp only [hm0, hm]
        rw [containers_map_sid_updateContainer _ p.sid _ hpro,
          containers_map_sid_updateContainer _ q.sid _ hdem]

theorem sidsOf_setActiveParticipant (p : Participant) (s : AppState) :
    sidsOf (setActiveParticipant p s).dom = sidsOf s.dom :=
  sidsOf_setActiveParticipantDom p s.activeParticipant s.isActiveParticipantPinned s.dom

theorem sidsOf_setCurrentActiveParticipant (room : Room) (s : AppState) :
    sidsOf (setCurrentActiveParticipant room s).dom = sidsOf s.dom :=
  sidsOf_setActiveParticipant _ s

theorem participantDisconnected_isPinned (p : Participant) (room : Room) (s : AppState) :
    (participantDisconnected p room s).isActiveParticipantPinned
      = if s.activeParticipant = some p ∧ s.isActiveParticipantPinned then false
        else s.isActiveParticipantPinned := by
  unfold participantDisconnected
  by_cases h : s.activeParticipant = some p ∧ s.isActiveParticipantPinned
  · rw [if_pos h, if_pos h]
    rfl
  · rw [if_neg h, if_neg h]

theorem participantDisconnected_activeParticipant (p : Participant) (room : Room)
    (s : AppState) :
    (participantDisconnected p room s).activeParticipant
      = if s.activeParticipant = some p ∧ s.isActiveParticipantPinned
        then some (room.dominantSpeaker.getD room.localParticipant)
        else s.activeParticipant := by
  unfold participantDisconnected
  by_cases h : s.activeParticipant = some p ∧ s.isActiveParticipantPinned
  · rw [if_pos h, if_pos h]
    rfl
  · rw [if_neg h, if_neg h]

theorem participantDisconnected_stoppedTracks (p : Participant) (room : Room)
    (s : AppState) :
    (participantDisconnected p room s).stoppedTracks = s.stoppedTracks := by
  unfold participantDisconnected
  by_cases h : s.activeParticipant = some p ∧ s.isActiveParticipantPinned
  · rw [if_pos h]
    rfl
  · rw [if_neg h]

theorem participantDisconnected_onbeforeunload (p : Participant) (room : Room)
    (s : AppState) :
    (participantDisconnected p room s).onbeforeunload = s.onbeforeunload := by
  unfold participantDisconnected
  by_cases h : s.activeParticipant = some p ∧ s.isActiveParticipantPinned
  · rw [if_pos h]
    rfl
  · rw [if_neg h]

theorem participantDisconnected_onpagehide (p : Participant) (room : Room)
    (s : AppState) :
    (participantDisconnected p room s).onpagehide = s.onpagehide := by
  unfold participantDisconnected
  by_cases h : s.activeParticipant = some p ∧ s.isActiveParticipantPinned
  · rw [if_pos h]
    rfl
  · rw [if_neg h]

theorem participantDisconnected_onvisibilitychange (p : Participant) (room : Room)
    (s : AppState) :
    (participantDisconnected p room s).onvisibilitychange = s.onvisibilitychange := by
  unfold participantDisconnected
  by_cases h : s.activeParticipant = some p ∧ s.isActiveParticipantPinned
  · rw [if_pos h]
    rfl
  · rw [if_neg h]

theorem sidsOf_participantDisconnected (p : Participant) (room : Room) (s : AppState) :
    sidsOf (participantDisconnected p room s).dom
      = (sidsOf s.dom).filter fun x => x != p.sid := by
  have keyl : ∀ l : List Container,
      ((l.filter fun c => c.sid != p.sid).map fun c => c.sid)
        = (l.map fun c => c.sid).filter fun x => x != p.sid := by
    intro l
    induction l with
    | nil => rfl
    | cons c l ih =>
      by_cases h : c.sid = p.sid
      · have hb : (c.sid != p.sid) = false := by simp [h]
        simp [List.filter_cons, hb, ih]
      · have hb : (c.sid != p.sid) = true := by simp [h]
        simp [List.filter_cons, hb, ih]
  unfold participantDisconnected
  by_cases h : s.activeParticipant = some p ∧ s.isActiveParticipantPinned
  · rw [if_pos h]
    dsimp only [sidsOf]
    rw [keyl]
    rw [show ((setCurrentActiveParticipant room
        { s with isActiveParticipantPinned := false }).dom.containers.map fun c => c.sid)
      = s.dom.containers.map fun c => c.sid
      from sidsOf_setCurrentActiveParticipant room _]
  · rw [if_neg h]
    dsimp only [sidsOf]
    rw [keyl]

theorem attachTrack_activeParticipant (t : Track) (p : Participant) (s : AppState) :
    (attachTrack t p s).activeParticipant = s.activeParticipant := rfl

theorem attachTrack_isPinned (t : Track) (p : Participant) (s : AppState) :
    (attachTrack t p s).isActiveParticipantPinned = s.isActiveParticipantPinned := rfl

theorem trackPublished_activeParticipant (pub : TrackPublication) (p : Participant)
    (s : AppState) :
    (trackPublished pub p s).activeParticipant = s.activeParticipant := by
  unfold trackPublished
  cases pub.track with
  | none => rfl
  | some t => exact attachTrack_activeParticipant t p s

theorem trackPublished_isPinned (pub : TrackPublication) (p : Participant) (s : AppState) :
    (trackPublished pub p s).isActiveParticipantPinned = s.isActiveParticipantPinned := by
  unfold trackPublished
  cases pub.track with
  | none => rfl
  | some t => exact attachTrack_isPinned t p s

theorem participantConnected_activeParticipant (p : Participant) (room : Room)
    (s : AppState) :
    (participantConnected p room s).activeParticipant = s.activeParticipant := by
  unfold participantConnected
  have : ∀ (pubs : List TrackPublication) (s1 : AppState),
      (pubs.foldl (fun s pub => trackPublished pub p s) s1).activeParticipant
        = s1.activeParticipant := by
    intro pubs
    induction pubs with
    | nil => intro s1; rfl
    | cons pub pubs ih =>
      intro s1
      rw [List.foldl_cons, ih, trackPublished_activeParticipant]
  rw [this]
  rfl

theorem participantConnected_isPinned (p : Participant) (room : Room) (s : AppState) :
    (participantConnected p room s).isActiveParticipantPinned
      = s.isActiveParticipantPinned := by
  unfold participantConnected
  have : ∀ (pubs : List TrackPublication) (s1 : AppState),
      (pubs.foldl (fun s pub => trackPublished pub p s) s1).isActiveParticipantPinned
        = s1.isActiveParticipantPinned := by
    intro pubs
    induction pubs with
    | nil => intro s1; rfl
    | cons pub pubs ih =>
      intro s1
      rw [List.foldl_cons, ih, trackPublished_isPinned]
  rw [this]
  rfl

theorem foldl_participantConnected_isPinned (room : Room) (ps : List Participant) :
    ∀ s : AppState,
      ((ps.foldl (fun s q => participantConnected q room s) s)).isActiveParticipantPinned
        = s.isActiveParticipantPinned := by
  induction ps with
  | nil => intro s; rfl
  | cons q ps ih =>
    intro s
    rw [List.foldl_cons, ih, participantConnected_isPinned]

theorem setActiveParticipantDom_activeVideo_of_track (p : Participant)
    (prev : Option Participant) (pinned : Bool) (d : Dom) (t : Track)
    (h : (p.videoTracks.head?.bind fun pub => pub.track) = some t) :
    (setActiveParticipantDom p prev pinned d).activeVideo
      = { attached := some t.id, opacity := Opacity.blank } := by
  unfold setActiveParticipantDom
  rw [h]
  rfl

theorem setActiveParticipant_activeVideo_of_track (p : Participant) (s : AppState)
    (t : Track) (h : (p.videoTracks.head?.bind fun pub => pub.track) = some t) :
    (setActiveParticipant p s).dom.activeVideo
      = { attached := some t.id, opacity := Opacity.blank } :=
  setActiveParticipantDom_activeVideo_of_track p _ _ _ t h

theorem findContainer_participantDisconnected (p : Participant) (room : Room)
    (s : AppState) :
    (participantDisconnected p room s).dom.findContainer p.sid = none := by
  have hc : (participantDisconnected p room s).dom.containers
      = ((if s.activeParticipant = some p ∧ s.isActiveParticipantPinned
          then setCurrentActiveParticipant room { s with isActiveParticipantPinned := false }
          else s).dom.containers.filter fun c => c.sid != p.sid) := rfl
  unfold Dom.findContainer
  rw [hc]
  apply List.find?_eq_none.mpr
  intro x hx
  have hx2 := (List.mem_filter.mp hx).2
  simpa using hx2

/-! ## The claims -/

/-- C9: `joinRoom` requires the connected local participant to have a
published video track: right after connect it reads the first entry of
`localParticipant.videoTracks` without a guard, so when that map is empty
it throws a TypeError — the error branch is taken before any participant
container is created or any handler installed — and the returned promise
rejects. -/
theorem C9_join_requires_local_video (isMobile : Bool) (room : Room) (s0 : AppState)
    (h : room.localParticipant.videoTracks = []) :
    joinRoom isMobile room s0 = Except.error JsError.typeError := by
  unfold joinRoom
  rw [h]
  rfl

theorem C9_witness :
    noVideoRoom.localParticipant.videoTracks = [] ∧
    joinRoom false noVideoRoom initialAppState = Except.error JsError.typeError :=
  ⟨rfl, C9_join_requires_local_video false noVideoRoom initialAppState rfl⟩

/-- C10: when the current active participant is not pinned and disconnects,
the handler does not recompute the active participant: `activeParticipant`
still references the disconnected participant although its container has
been removed, and only the next dominant-speaker-changed event reselects by
the dominant-speaker rule. -/
theorem C10_stale_active_after_unpinned_disconnect (s : SysState) (p : Participant)
    (hpin : s.app.isActiveParticipantPinned = false)
    (hact : s.app.activeParticipant = some p) :
    ∃ s', step (Event.participantDisconnected p) s = Except.ok s' ∧
      s'.app.activeParticipant = some p ∧
      s'.app.dom.findContainer p.sid = none ∧
      ∀ ds : Option Participant, ∃ s2,
        step (Event.dominantSpeakerChanged ds) s' = Except.ok s2 ∧
        s2.app.activeParticipant = some (ds.getD s2.room.localParticipant) := by
  have hcond : ¬(s.app.activeParticipant = some p ∧
      s.app.isActiveParticipantPinned = true) := by
    intro hc
    rw [hpin] at hc
    exact Bool.false_ne_true hc.2
  refine ⟨_, rfl, ?_, ?_, ?_⟩
  · show (participantDisconnected p _ s.app).activeParticipant = some p
    rw [participantDisconnected_activeParticipant, if_neg hcond]
    exact hact
  · exact findContainer_participantDisconnected p _ s.app
  · intro ds
    have hp' : ∀ room2, (participantDisconnected p room2 s.app).isActiveParticipantPinned
        = false := by
      intro room2
      rw [participantDisconnected_isPinned, if_neg hcond]
      exact hpin
    refine ⟨_, rfl, ?_⟩
    show (if (participantDisconnected p _ s.app).isActiveParticipantPinned = true
        then _ else setCurrentActiveParticipant _ _).activeParticipant = _
    rw [hp', if_neg Bool.false_ne_true, setCurrentActiveParticipant_activeParticipant]

theorem C10_witness :
    ∃ s', step (Event.participantDisconnected partB)
        { room := demoRoom, app := demoStateActiveB } = Except.ok s' ∧
      s'.app.activeParticipant = some partB ∧
      s'.app.dom.findContainer partB.sid = none ∧
      ∀ ds : Option Participant, ∃ s2,
        step (Event.dominantSpeakerChanged ds) s' = Except.ok s2 ∧
        s2.app.activeParticipant = some (ds.getD s2.room.localParticipant) :=
  C10_stale_active_after_unpinned_disconnect
    { room := demoRoom, app := demoStateActiveB } partB rfl rfl

theorem run_cons (e : Event) (evs : List Event) (s s1 : SysState)
    (h : step e s = Except.ok s1) : run (e :: evs) s = run evs s1 := by
  simp only [run, h]

theorem step_dsChanged (ds : Option Participant) (s : SysState) :
    step (Event.dominantSpeakerChanged ds) s = Except.ok
      { room := { s.room with dominantSpeaker := ds }
        app := if s.app.isActiveParticipantPinned
          then s.app
          else setCurrentActiveParticipant { s.room with dominantSpeaker := ds } s.app } :=
  rfl

theorem run_dsOnly_pinned : ∀ evs : List Event, (∀ e ∈ evs, e.isDsChanged = true) →
    ∀ s : SysState, s.app.isActiveParticipantPinned = true →
      ∃ s', run evs s = Except.ok s' ∧ s'.app = s.app := by
  intro evs
  induction evs with
  | nil =>
    intro _ s _
    exact ⟨s, rfl, rfl⟩
  | cons e evs ih =>
    intro hevs s hp
    have he := hevs e (List.mem_cons_self e evs)
    cases e with
    | click p => exact absurd he (by simp [Event.isDsChanged])
    | participantDisconnected p => exact absurd he (by simp [Event.isDsChanged])
    | dominantSpeakerChanged ds =>
      have hstep : step (Event.dominantSpeakerChanged ds) s = Except.ok
          { room := { s.room with dominantSpeaker := ds }, app := s.app } := by
        rw [step_dsChanged, hp, if_pos rfl]
      obtain ⟨s', hrun, happ⟩ := ih (fun e hm => hevs e (List.mem_cons_of_mem _ hm))
        { room := { s.room with dominantSpeaker := ds }, app := s.app } hp
      exact ⟨s', by rw [run_cons _ _ _ _ hstep]; exact hrun, happ⟩

theorem run_dsOnly_unpinned : ∀ evs : List Event, (∀ e ∈ evs, e.isDsChanged = true) →
    ∀ s : SysState, s.app.isActiveParticipantPinned = false → DsRule s →
      ∃ s', run evs s = Except.ok s' ∧
        s'.app.isActiveParticipantPinned = false ∧ DsRule s' := by
  intro evs
  induction evs with
  | nil =>
    intro _ s hpin hds
    exact ⟨s, rfl, hpin, hds⟩
  | cons e evs ih =>
    intro hevs s hpin _
    have he := hevs e (List.mem_cons_self e evs)
    cases e with
    | click p => exact absurd he (by simp [Event.isDsChanged])
    | participantDisconnected p => exact absurd he (by simp [Event.isDsChanged])
    | dominantSpeakerChanged ds =>
      have hstep : step (Event.dominantSpeakerChanged ds) s = Except.ok
          { room := { s.room with dominantSpeaker := ds }
            app := setCurrentActiveParticipant
              { s.room with dominantSpeaker := ds } s.app } := by
        rw [step_dsChanged, hpin, if_neg Bool.false_ne_true]
      have hpin1 : (setCurrentActiveParticipant
          { s.room with dominantSpeaker := ds } s.app).isActiveParticipantPinned
          = false := by
        rw [setCurrentActiveParticipant_isPinned]
        exact hpin
      obtain ⟨s', hrun, hpin', hds'⟩ := ih (fun e hm => hevs e (List.mem_cons_of_mem _ hm))
        { room := { s.room with dominantSpeaker := ds }
          app := setCurrentActiveParticipant
            { s.room with dominantSpeaker := ds } s.app }
        hpin1 rfl
      exact ⟨s', by rw [run_cons _ _ _ _ hstep]; exact hrun, hpin', hds'⟩

/-- C1: with no participant pinned, the active participant always follows
the dominant-speaker rule: right after a successful join, and after every
dominant-speaker-changed event of any such event sequence, the
`activeParticipant` global equals the room's dominant speaker when one is
reported and the local participant otherwise (and the pin flag stays
clear, so the rule keeps applying). -/
theorem C1_dominant_speaker_rule (isMobile : Bool) (room : Room) :
    (∀ setup, joinRoom isMobile room initialAppState = Except.ok setup →
      DsRule { room := room, app := setup.state } ∧
      setup.state.isActiveParticipantPinned = false) ∧
    (∀ (s : SysState) (evs : List Event),
      (∀ e ∈ evs, e.isDsChanged = true) →
      s.app.isActiveParticipantPinned = false → DsRule s →
      ∃ s', run evs s = Except.ok s' ∧
        s'.app.isActiveParticipantPinned = false ∧ DsRule s') := by
  constructor
  · intro setup hjoin
    unfold joinRoom at hjoin
    cases hh : room.localParticipant.videoTracks.head? with
    | none =>
      rw [hh] at hjoin
      exact Except.noConfusion hjoin
    | some pub =>
      rw [hh] at hjoin
      injection hjoin with h1
      subst h1
      constructor
      · cases isMobile <;> rfl
      · cases isMobile
        · show (setCurrentActiveParticipant room _).isActiveParticipantPinned = false
          exact (setCurrentActiveParticipant_isPinned room _).trans
            ((foldl_participantConnected_isPinned room room.participants _).trans
              (participantConnected_isPinned room.localParticipant room initialAppState))
        · show (setCurrentActiveParticipant room _).isActiveParticipantPinned = false
          exact (setCurrentActiveParticipant_isPinned room _).trans
            ((foldl_participantConnected_isPinned room room.participants _).trans
              (participantConnected_isPinned room.localParticipant room initialAppState))
  · intro s evs hall hpin hds
    exact run_dsOnly_unpinned evs hall s hpin hds

theorem C1_witness :
    (∃ setup, joinRoom false demoRoom initialAppState = Except.ok setup ∧
      DsRule { room := demoRoom, app := setup.state } ∧
      setup.state.isActiveParticipantPinned = false) ∧
    (∃ s', run [Event.dominantSpeakerChanged (some partB)]
        { room := demoRoom, app := demoState } = Except.ok s' ∧
      s'.app.isActiveParticipantPinned = false ∧ DsRule s') := by
  constructor
  · obtain ⟨setup, hjoin⟩ : ∃ setup, joinRoom false demoRoom initialAppState
        = Except.ok setup := ⟨_, rfl⟩
    obtain ⟨h1, h2⟩ := (C1_dominant_speaker_rule false demoRoom).1 setup hjoin
    exact ⟨setup, hjoin, h1, h2⟩
  · exact (C1_dominant_speaker_rule false demoRoom).2
      { room := demoRoom, app := demoState } [Event.dominantSpeakerChanged (some partB)]
      (by decide) rfl rfl

theorem containerClick_unpin (p : Participant) (room : Room) (s : AppState)
    (h1 : s.activeParticipant = some p) (h2 : s.isActiveParticipantPinned = true) :
    containerClick p room s = Except.ok (setCurrentActiveParticipant room
      { setVideoPriority p none s with isActiveParticipantPinned := false }) := by
  unfold containerClick
  rw [if_pos ⟨h1, h2⟩]

theorem containerClick_pin_from_unpinned (p : Participant) (room : Room) (s : AppState)
    (h2 : s.isActiveParticipantPinned = false) :
    containerClick p room s = Except.ok (setActiveParticipant p
      { setVideoPriority p (some PriorityLevel.high) s with
        isActiveParticipantPinned := true }) := by
  unfold containerClick
  rw [if_neg fun hc => Bool.false_ne_true (h2 ▸ hc.2), h2]

theorem containerClick_repin (p q : Participant) (room : Room) (s : AppState)
    (h2 : s.isActiveParticipantPinned = true) (ha : s.activeParticipant = some q)
    (hne : q ≠ p) :
    containerClick p room s = Except.ok (setActiveParticipant p
      { setVideoPriority p (some PriorityLevel.high) (setVideoPriority q none s) with
        isActiveParticipantPinned := true }) := by
  unfold containerClick
  have hns : ¬(s.activeParticipant = some p ∧ s.isActiveParticipantPinned = true) := by
    intro hc
    rw [ha] at hc
    exact hne (Option.some.inj hc.1)
  rw [if_neg hns, h2, ha]

/-- C3: once a participant P is pinned by a click, any number of subsequent
dominant-speaker-changed events leaves `activeParticipant` equal to P with
the pin flag still set (the dominant-speaker handler is guarded by the pin
flag). -/
theorem C3_pin_stability (s : SysState) (P : Participant) (hinv : PinInv s)
    (hnot : ¬(s.app.activeParticipant = some P ∧
      s.app.isActiveParticipantPinned = true))
    (evs : List Event) (hevs : ∀ e ∈ evs, e.isDsChanged = true) :
    ∃ s1 s', step (Event.click P) s = Except.ok s1 ∧
      s1.app.activeParticipant = some P ∧
      s1.app.isActiveParticipantPinned = true ∧
      run evs s1 = Except.ok s' ∧
      s'.app.activeParticipant = some P ∧
      s'.app.isActiveParticipantPinned = true := by
  have hclick : ∃ a, containerClick P s.room s.app = Except.ok a ∧
      a.activeParticipant = some P ∧ a.isActiveParticipantPinned = true := by
    cases hp : s.app.isActiveParticipantPinned with
    | false =>
      exact ⟨_, containerClick_pin_from_unpinned P s.room s.app hp, rfl, rfl⟩
    | true =>
      cases ha : s.app.activeParticipant with
      | none => exact absurd ha (hinv hp)
      | some q =>
        have hne : q ≠ P := fun hqP => hnot ⟨by rw [ha, hqP], hp⟩
        exact ⟨_, containerClick_repin P q s.room s.app hp ha hne, rfl, rfl⟩
  obtain ⟨a, hca, haP, hap⟩ := hclick
  have hstep : step (Event.click P) s = Except.ok { room := s.room, app := a } := by
    show (containerClick P s.room s.app).map _ = _
    rw [hca]
    rfl
  obtain ⟨s', hrun, happ⟩ := run_dsOnly_pinned evs hevs { room := s.room, app := a } hap
  refine ⟨{ room := s.room, app := a }, s', hstep, haP, hap, hrun, ?_, ?_⟩
  · rw [happ]
    exact haP
  · rw [happ]
    exact hap

theorem C3_witness :
    ∃ s1 s', step (Event.click partB) { room := demoRoom, app := demoState }
        = Except.ok s1 ∧
      s1.app.activeParticipant = some partB ∧
      s1.app.isActiveParticipantPinned = true ∧
      run [Event.dominantSpeakerChanged (some partC),
        Event.dominantSpeakerChanged none] s1 = Except.ok s' ∧
      s'.app.activeParticipant = some partB ∧
      s'.app.isActiveParticipantPinned = true :=
  C3_pin_stability { room := demoRoom, app := demoState } partB
    (fun h => absurd h (by decide)) (by decide)
    [Event.dominantSpeakerChanged (some partC), Event.dominantSpeakerChanged none]
    (by decide)

/-- C2: the pin invariant is preserved by every handler (click,
dominant-speaker change, participant disconnect): no handler faults, when
the flag is set the active participant is the pinned one (it was set by the
pinning click and only another click can move it), and the flag is cleared
by a step exactly when the event is a click on the pinned active
participant (explicit unpin) or the pinned active participant's
disconnection. -/
theorem C2_pin_invariant (s : SysState) (e : Event) (hinv : PinInv s) :
    ∃ s', step e s = Except.ok s' ∧ PinInv s' ∧
      (s'.app.isActiveParticipantPinned = true →
        (∃ p, e = Event.click p ∧ s'.app.activeParticipant = some p) ∨
        (s.app.isActiveParticipantPinned = true ∧
          s'.app.activeParticipant = s.app.activeParticipant)) ∧
      (s.app.isActiveParticipantPinned = true →
        (s'.app.isActiveParticipantPinned = false ↔
          ∃ p, s.app.activeParticipant = some p ∧
            (e = Event.click p ∨ e = Event.participantDisconnected p))) := by
  cases e with
  | click p =>
    by_cases hc : s.app.activeParticipant = some p ∧
        s.app.isActiveParticipantPinned = true
    · have hca := containerClick_unpin p s.room s.app hc.1 hc.2
      have hstep : step (Event.click p) s = Except.ok
          { room := s.room
            app := setCurrentActiveParticipant s.room
              { setVideoPriority p none s.app with
                isActiveParticipantPinned := false } } := by
        show (containerClick p s.room s.app).map _ = _
        rw [hca]
        rfl
      have hpa : (setCurrentActiveParticipant s.room
          { setVideoPriority p none s.app with
            isActiveParticipantPinned := false }).isActiveParticipantPinned = false := by
        rw [setCurrentActiveParticipant_isPinned]
      refine ⟨_, hstep, ?_, ?_, ?_⟩
      · intro h
        exact absurd (hpa.symm.trans h) Bool.false_ne_true
      · intro h
        exact absurd (hpa.symm.trans h) Bool.false_ne_true
      · intro _
        exact iff_of_true hpa ⟨p, hc.1, Or.inl rfl⟩
    · cases hp : s.app.isActiveParticipantPinned with
      | true =>
        cases ha : s.app.activeParticipant with
        | none => exact absurd ha (hinv hp)
        | some q =>
          have hne : q ≠ p := fun hqp => hc ⟨by rw [ha, hqp], hp⟩
          have hca := containerClick_repin p q s.room s.app hp ha hne
          have hstep : step (Event.click p) s = Except.ok
              { room := s.room
                app := setActiveParticipant p
                  { setVideoPriority p (some PriorityLevel.high)
                      (setVideoPriority q none s.app) with
                    isActiveParticipantPinned := true } } := by
            show (containerClick p s.room s.app).map _ = _
            rw [hca]
            rfl
          refine ⟨_, hstep, ?_, ?_, ?_⟩
          · intro _ hz
            exact Option.noConfusion hz
          · intro _
            exact Or.inl ⟨p, rfl, rfl⟩
          · intro _
            refine iff_of_false (fun hf => Bool.noConfusion hf) ?_
            rintro ⟨p0, hp0, hor⟩
            have hq0 : q = p0 := Option.some.inj hp0
            cases hor with
            | inl hcl =>
              have : p = p0 := by
                injection hcl
              exact hne (hq0.trans this.symm)
            | inr hds => exact Event.noConfusion hds
      | false =>
        have hca := containerClick_pin_from_unpinned p s.room s.app hp
        have hstep : step (Event.click p) s = Except.ok
            { room := s.room
              app := setActiveParticipant p
                { setVideoPriority p (some PriorityLevel.high) s.app with
                  isActiveParticipantPinned := true } } := by
          show (containerClick p s.room s.app).map _ = _
          rw [hca]
          rfl
        refine ⟨_, hstep, ?_, ?_, ?_⟩
        · intro _ hz
          exact Option.noConfusion hz
        · intro _
          exact Or.inl ⟨p, rfl, rfl⟩
        · intro hst
          exact absurd hst Bool.false_ne_true
  | dominantSpeakerChanged ds =>
    cases hp : s.app.isActiveParticipantPinned with
    | true =>
      have hstep : step (Event.dominantSpeakerChanged ds) s = Except.ok
          { room := { s.room with dominantSpeaker := ds }, app := s.app } := by
        rw [step_dsChanged, hp, if_pos rfl]
      refine ⟨_, hstep, ?_, ?_, ?_⟩
      · exact hinv
      · intro _
        exact Or.inr ⟨rfl, rfl⟩
      · intro _
        refine iff_of_false (fun hf => Bool.false_ne_true (hf.symm.trans hp)) ?_
        rintro ⟨p0, _, hor⟩
        cases hor with
        | inl hcl => exact Event.noConfusion hcl
        | inr hds => exact Event.noConfusion hds
    | false =>
      have hstep : step (Event.dominantSpeakerChanged ds) s = Except.ok
          { room := { s.room with dominantSpeaker := ds }
            app := setCurrentActiveParticipant
              { s.room with dominantSpeaker := ds } s.app } := by
        rw [step_dsChanged, hp, if_neg Bool.false_ne_true]
      have hpa : (setCurrentActiveParticipant
          { s.room with dominantSpeaker := ds } s.app).isActiveParticipantPinned
          = false := by
        rw [setCurrentActiveParticipant_isPinned]
        exact hp
      refine ⟨_, hstep, ?_, ?_, ?_⟩
      · intro h
        exact absurd (hpa.symm.trans h) Bool.false_ne_true
      · intro h
        exact absurd (hpa.symm.trans h) Bool.false_ne_true
      · intro hst
        exact absurd hst Bool.false_ne_true
  | participantDisconnected p =>
    by_cases hc : s.app.activeParticipant = some p ∧
        s.app.isActiveParticipantPinned = true
    · have hpa : (participantDisconnected p
          { s.room with participants := s.room.participants.filter fun q => q.sid != p.sid }
          s.app).isActiveParticipantPinned = false := by
        rw [participantDisconnected_isPinned, if_pos hc]
      refine ⟨_, rfl, ?_, ?_, ?_⟩
      · intro h
        exact absurd (hpa.symm.trans h) Bool.false_ne_true
      · intro h
        exact absurd (hpa.symm.trans h) Bool.false_ne_true
      · intro _
        exact iff_of_true hpa ⟨p, hc.1, Or.inr rfl⟩
    · have hpa : (participantDisconnected p
          { s.room with participants := s.room.participants.filter fun q => q.sid != p.sid }
          s.app).isActiveParticipantPinned = s.app.isActiveParticipantPinned := by
        rw [participantDisconnected_isPinned, if_neg hc]
      have haa : (participantDisconnected p
          { s.room with participants := s.room.participants.filter fun q => q.sid != p.sid }
          s.app).activeParticipant = s.app.activeParticipant := by
        rw [participantDisconnected_activeParticipant, if_neg hc]
      refine ⟨_, rfl, ?_, ?_, ?_⟩
      · intro h hz
        exact hinv (hpa.symm.trans h) (haa.symm.trans hz)
      · intro h
        exact Or.inr ⟨hpa.symm.trans h, haa⟩
      · intro hst
        refine iff_of_false
          (fun hf => Bool.false_ne_true ((hpa.symm.trans hf).symm.trans hst)) ?_
        rintro ⟨p0, hp0, hor⟩
        cases hor with
        | inl hcl => exact Event.noConfusion hcl
        | inr hds =>
          have hpp0 : p = p0 := by
            injection hds
          exact hc ⟨by rw [hpp0]; exact hp0, hst⟩

theorem C2_witness :
    ∃ s', step (Event.participantDisconnected partB)
        { room := demoRoom, app := demoStatePinnedB } = Except.ok s' ∧
      PinInv s' ∧
      (s'.app.isActiveParticipantPinned = true →
        (∃ p, Event.participantDisconnected partB = Event.click p ∧
          s'.app.activeParticipant = some p) ∨
        (demoStatePinnedB.isActiveParticipantPinned = true ∧
          s'.app.activeParticipant = demoStatePinnedB.activeParticipant)) ∧
      (demoStatePinnedB.isActiveParticipantPinned = true →
        (s'.app.isActiveParticipantPinned = false ↔
          ∃ p, demoStatePinnedB.activeParticipant = some p ∧
            (Event.participantDisconnected partB = Event.click p ∨
              Event.participantDisconnected partB = Event.participantDisconnected p))) :=
  C2_pin_invariant { room := demoRoom, app := demoStatePinnedB }
    (Event.participantDisconnected partB) (fun _ hz => Option.noConfusion hz)

theorem clearSrc_detachEl (t : Track) (e : MediaEl) :
    (t.detachEl e).clearSrc = { attached := none, opacity := e.opacity } := by
  unfold Track.detachEl MediaEl.clearSrc
  split <;> rfl

theorem attachUpd_sid (t : Track) (c : Container) : (attachUpd t c).sid = c.sid := by
  unfold attachUpd
  cases t.kind <;> rfl

theorem attachUpd_idem (t : Track) (c : Container) :
    attachUpd t (attachUpd t c) = attachUpd t c := by
  unfold attachUpd
  cases t.kind <;> rfl

theorem detachUpd_eq (t : Track) (c : Container) :
    detachUpd t c = (match t.kind with
      | TrackKind.audio => { c with audioEl := { attached := none, opacity := Opacity.zero } }
      | TrackKind.video => { c with videoEl := { attached := none, opacity := Opacity.zero } }) := by
  unfold detachUpd
  cases t.kind with
  | audio =>
    dsimp only
    rw [clearSrc_detachEl]
  | video =>
    dsimp only
    rw [clearSrc_detachEl]

theorem detachUpd_sid (t : Track) (c : Container) : (detachUpd t c).sid = c.sid := by
  rw [detachUpd_eq]
  cases t.kind <;> rfl

theorem detachUpd_idem (t : Track) (c : Container) :
    detachUpd t (detachUpd t c) = detachUpd t c := by
  simp only [detachUpd_eq]
  cases t.kind <;> rfl

theorem updateContainer_idem (d : Dom) (sid : Nat) (g : Container → Container)
    (hg_sid : ∀ c, (g c).sid = c.sid) (hgg : ∀ c, g (g c) = g c) :
    (d.updateContainer sid g).updateContainer sid g = d.updateContainer sid g := by
  rw [updateContainer_updateContainer d sid g g hg_sid]
  unfold Dom.updateContainer
  have key : ∀ l : List Container,
      (l.map fun c => if c.sid = sid then g (g c) else c)
        = l.map fun c => if c.sid = sid then g c else c := by
    intro l
    apply List.map_congr_left
    intro c _
    by_cases h : c.sid = sid
    · rw [if_pos h, if_pos h, hgg]
    · rw [if_neg h, if_neg h]
  rw [key d.containers]

theorem attachTrack_eq_pos (t : Track) (p : Participant) (s : AppState)
    (h : t.kind = TrackKind.video ∧ s.activeParticipant = some p) :
    attachTrack t p s = { s with dom :=
      { s.dom.updateContainer p.sid (attachUpd t) with
        activeVideo := { attached := some t.id, opacity := Opacity.blank } } } := by
  unfold attachTrack
  dsimp only
  rw [if_pos h]
  rfl

theorem attachTrack_eq_neg (t : Track) (p : Participant) (s : AppState)
    (h : ¬(t.kind = TrackKind.video ∧ s.activeParticipant = some p)) :
    attachTrack t p s = { s with dom := s.dom.updateContainer p.sid (attachUpd t) } := by
  unfold attachTrack
  dsimp only
  rw [if_neg h]

theorem detachTrack_eq_pos (t : Track) (p : Participant) (s : AppState) (c : Container)
    (hc : s.dom.findContainer p.sid = some c)
    (h : t.kind = TrackKind.video ∧ s.activeParticipant = some p) :
    detachTrack t p s = Except.ok { s with dom :=
      { s.dom.updateContainer p.sid (detachUpd t) with
        activeVideo := { attached := none, opacity := Opacity.zero } } } := by
  unfold detachTrack
  rw [hc]
  dsimp only
  rw [if_pos h]
  rfl

theorem detachTrack_eq_neg (t : Track) (p : Participant) (s : AppState) (c : Container)
    (hc : s.dom.findContainer p.sid = some c)
    (h : ¬(t.kind = TrackKind.video ∧ s.activeParticipant = some p)) :
    detachTrack t p s = Except.ok
      { s with dom := s.dom.updateContainer p.sid (detachUpd t) } := by
  unfold detachTrack
  rw [hc]
  dsimp only
  rw [if_neg h]

/-- C4 counterexample: the claim promises that a detach whose thumbnail
media element is absent raises no error, but `detachTrack` runs
`mediaEl.srcObject = null` on the missing element: for the concrete
participant with no container in the sample state, it faults with a
TypeError instead of being a no-op. -/
theorem C4_counterexample :
    demoState.dom.findContainer partNoVideo.sid = none ∧
    detachTrack videoTrackB partNoVideo demoState = Except.error JsError.typeError :=
  ⟨rfl, rfl⟩

/-- C4 (amended): when the participant's thumbnail media element exists,
detaching — attached or not — succeeds and is idempotent and preserves the
number of DOM containers; attaching is always idempotent (re-attaching an
already-attached track changes nothing) and creates no container; but when
the media element is absent, `detachTrack` raises a TypeError. -/
theorem C4_attach_detach_idempotent (t : Track) (p : Participant) (s : AppState) :
    ((∃ c, s.dom.findContainer p.sid = some c) →
      ∃ s', detachTrack t p s = Except.ok s' ∧
        detachTrack t p s' = Except.ok s' ∧
        s'.dom.containers.length = s.dom.containers.length) ∧
    (attachTrack t p (attachTrack t p s) = attachTrack t p s ∧
      (attachTrack t p s).dom.containers.length = s.dom.containers.length) ∧
    (s.dom.findContainer p.sid = none →
      detachTrack t p s = Except.error JsError.typeError) := by
  refine ⟨?_, ⟨?_, ?_⟩, ?_⟩
  · rintro ⟨c, hc⟩
    by_cases hcond : t.kind = TrackKind.video ∧ s.activeParticipant = some p
    · refine ⟨_, detachTrack_eq_pos t p s c hc hcond, ?_, ?_⟩
      · have hc1 : ({ s with dom :=
            { s.dom.updateContainer p.sid (detachUpd t) with
              activeVideo := { attached := none, opacity := Opacity.zero } } }
              : AppState).dom.findContainer p.sid = some (detachUpd t c) :=
          (findContainer_updateContainer s.dom p.sid (detachUpd t)
            (detachUpd_sid t)).trans (by rw [hc]; rfl)
        rw [detachTrack_eq_pos t p _ (detachUpd t c) hc1 ⟨hcond.1, hcond.2⟩]
        show Except.ok { s with dom :=
            { (s.dom.updateContainer p.sid (detachUpd t)).updateContainer
                p.sid (detachUpd t) with
              activeVideo := { attached := none, opacity := Opacity.zero } } } = _
        rw [updateContainer_idem s.dom p.sid (detachUpd t)
          (detachUpd_sid t) (detachUpd_idem t)]
      · exact List.length_map _ _
    · refine ⟨_, detachTrack_eq_neg t p s c hc hcond, ?_, ?_⟩
      · have hc1 : ({ s with dom := s.dom.updateContainer p.sid (detachUpd t) }
              : AppState).dom.findContainer p.sid = some (detachUpd t c) :=
          (findContainer_updateContainer s.dom p.sid (detachUpd t)
            (detachUpd_sid t)).trans (by rw [hc]; rfl)
        rw [detachTrack_eq_neg t p _ (detachUpd t c) hc1 fun hx => hcond ⟨hx.1, hx.2⟩]
        show Except.ok { s with dom :=
            ((s.dom.updateContainer p.sid (detachUpd t)).updateContainer
              p.sid (detachUpd t)) } = _
        rw [updateContainer_idem s.dom p.sid (detachUpd t)
          (detachUpd_sid t) (detachUpd_idem t)]
      · exact List.length_map _ _
  · by_cases hcond : t.kind = TrackKind.video ∧ s.activeParticipant = some p
    · rw [attachTrack_eq_pos t p s hcond]
      have hcond1 : t.kind = TrackKind.video ∧
          ({ s with dom := { s.dom.updateContainer p.sid (attachUpd t) with
            activeVideo := { attached := some t.id, opacity := Opacity.blank } } }
            : AppState).activeParticipant = some p := ⟨hcond.1, hcond.2⟩
      rw [attachTrack_eq_pos t p _ hcond1]
      show { s with dom :=
          { (s.dom.updateContainer p.sid (attachUpd t)).updateContainer
              p.sid (attachUpd t) with
            activeVideo := { attached := some t.id, opacity := Opacity.blank } } } = _
      rw [updateContainer_idem s.dom p.sid (attachUpd t)
        (attachUpd_sid t) (attachUpd_idem t)]
    · rw [attachTrack_eq_neg t p s hcond]
      have hcond1 : ¬(t.kind = TrackKind.video ∧
          ({ s with dom := s.dom.updateContainer p.sid (attachUpd t) }
            : AppState).activeParticipant = some p) := fun hx => hcond ⟨hx.1, hx.2⟩
      rw [attachTrack_eq_neg t p _ hcond1]
      show { s with dom :=
          ((s.dom.updateContainer p.sid (attachUpd t)).updateContainer
            p.sid (attachUpd t)) } = _
      rw [updateContainer_idem s.dom p.sid (attachUpd t)
        (attachUpd_sid t) (attachUpd_idem t)]
  · by_cases hcond : t.kind = TrackKind.video ∧ s.activeParticipant = some p
    · rw [attachTrack_eq_pos t p s hcond]
      exact List.length_map _ _
    · rw [attachTrack_eq_neg t p s hcond]
      exact List.length_map _ _
  · intro h
    unfold detachTrack
    rw [h]

theorem C4_witness :
    (∃ s', detachTrack videoTrackB partB demoState = Except.ok s' ∧
      detachTrack videoTrackB partB s' = Except.ok s' ∧
      s'.dom.containers.length = demoState.dom.containers.length) ∧
    (attachTrack videoTrackB partB (attachTrack videoTrackB partB demoState)
      = attachTrack videoTrackB partB demoState) := by
  obtain ⟨h1, ⟨heq, _⟩, _⟩ := C4_attach_detach_idempotent videoTrackB partB demoState
  exact ⟨h1 ⟨containerFor partB, rfl⟩, heq⟩

/-- C8 counterexample: an audio track published by the current active
participant is attached only to the thumbnail, not to the shared main
surface, contradicting the claim that every attached track of the active
participant is additionally rendered into the main surface. -/
theorem C8_counterexample :
    demoStateActiveB.activeParticipant = some partB ∧
    (attachTrack audioTrackB partB demoStateActiveB).dom.activeVideo.attached
      ≠ some audioTrackB.id :=
  ⟨rfl, by decide⟩

/-- C8 (amended): `attachTrack` renders the track into the publishing
participant's thumbnail container (when that container exists), and renders
it into the shared main surface if and only if the track is a video track
and the publishing participant is the current active participant. -/
theorem C8_attach_surfaces (t : Track) (p : Participant) (s : AppState)
    (hmain : s.dom.activeVideo.attached ≠ some t.id) :
    ((attachTrack t p s).dom.activeVideo.attached = some t.id ↔
      t.kind = TrackKind.video ∧ s.activeParticipant = some p) ∧
    (∀ c, s.dom.findContainer p.sid = some c →
      (attachTrack t p s).dom.findContainer p.sid = some (attachUpd t c) ∧
      (t.kind = TrackKind.video →
        (attachUpd t c).videoEl = { attached := some t.id, opacity := Opacity.blank }) ∧
      (t.kind = TrackKind.audio →
        (attachUpd t c).audioEl = { attached := some t.id, opacity := Opacity.blank })) := by
  constructor
  · by_cases hcond : t.kind = TrackKind.video ∧ s.activeParticipant = some p
    · rw [attachTrack_eq_pos t p s hcond]
      exact iff_of_true rfl hcond
    · rw [attachTrack_eq_neg t p s hcond]
      exact iff_of_false hmain hcond
  · intro c hc
    refine ⟨?_, ?_, ?_⟩
    · by_cases hcond : t.kind = TrackKind.video ∧ s.activeParticipant = some p
      · rw [attachTrack_eq_pos t p s hcond]
        exact (findContainer_updateContainer s.dom p.sid (attachUpd t)
          (attachUpd_sid t)).trans (by rw [hc]; rfl)
      · rw [attachTrack_eq_neg t p s hcond]
        exact (findContainer_updateContainer s.dom p.sid (attachUpd t)
          (attachUpd_sid t)).trans (by rw [hc]; rfl)
    · intro hv
      unfold attachUpd
      rw [hv]
      rfl
    · intro hau
      unfold attachUpd
      rw [hau]
      rfl

theorem C8_witness :
    ((attachTrack videoTrackB partB demoStateActiveB).dom.activeVideo.attached
        = some videoTrackB.id ↔
      videoTrackB.kind = TrackKind.video ∧
        demoStateActiveB.activeParticipant = some partB) ∧
    (attachTrack videoTrackB partB demoStateActiveB).dom.findContainer partB.sid
      = some (attachUpd videoTrackB (containerFor partB)) := by
  obtain ⟨h1, h2⟩ := C8_attach_surfaces videoTrackB partB demoStateActiveB (by decide)
  exact ⟨h1, (h2 (containerFor partB) rfl).1⟩

/-- C5 counterexample: joining a room whose only (local) participant has no
video track does not result in `activeParticipant` being the local
participant with a hidden main surface — `joinRoom` faults reading the
empty `videoTracks` map, so there is no resulting state at all. -/
theorem C5_counterexample :
    ¬ ∃ setup, joinRoom false noVideoRoom initialAppState = Except.ok setup := by
  rintro ⟨setup, h⟩
  rw [show joinRoom false noVideoRoom initialAppState
    = Except.error JsError.typeError from rfl] at h
  exact Except.noConfusion h

/-- C5 (amended): joining a room that contains only the local participant
and has no dominant speaker makes the local participant active with its
video track attached to the shown main surface, provided the local
participant has a (subscribed) video publication; when the local
participant has no video track at all, `joinRoom` instead throws before
selecting any active participant. -/
theorem C5_solo_join (isMobile : Bool) (room : Room) (s0 : AppState)
    (pub : TrackPublication) (t : Track) :
    (room.participants = [] → room.dominantSpeaker = none →
      room.localParticipant.videoTracks = [pub] → pub.track = some t →
      ∃ setup, joinRoom isMobile room s0 = Except.ok setup ∧
        setup.state.activeParticipant = some room.localParticipant ∧
        setup.state.dom.activeVideo
          = { attached := some t.id, opacity := Opacity.blank } ∧
        setup.localVideoTrack = some t) ∧
    (room.localParticipant.videoTracks = [] →
      joinRoom isMobile room s0 = Except.error JsError.typeError) := by
  constructor
  · intro hparts hds hvt htr
    have hh : room.localParticipant.videoTracks.head? = some pub := by
      rw [hvt]
      rfl
    have hb : (room.localParticipant.videoTracks.head?.bind fun pb => pb.track)
        = some t := by
      rw [hvt]
      show pub.track = some t
      exact htr
    have hsc : ∀ s1 : AppState, setCurrentActiveParticipant room s1
        = setActiveParticipant room.localParticipant s1 := by
      intro s1
      unfold setCurrentActiveParticipant
      rw [hds]
      rfl
    unfold joinRoom
    rw [hh, hparts]
    refine ⟨_, rfl, ?_, ?_, ?_⟩
    · cases isMobile
      · show (setCurrentActiveParticipant room
            (participantConnected room.localParticipant room s0)).activeParticipant
          = some room.localParticipant
        rw [setCurrentActiveParticipant_activeParticipant, hds]
        rfl
      · show (setCurrentActiveParticipant room
            (participantConnected room.localParticipant room s0)).activeParticipant
          = some room.localParticipant
        rw [setCurrentActiveParticipant_activeParticipant, hds]
        rfl
    · cases isMobile
      · show (setCurrentActiveParticipant room
            (participantConnected room.localParticipant room s0)).dom.activeVideo = _
        rw [hsc]
        exact setActiveParticipant_activeVideo_of_track room.localParticipant _ t hb
      · show (setCurrentActiveParticipant room
            (participantConnected room.localParticipant room s0)).dom.activeVideo = _
        rw [hsc]
        exact setActiveParticipant_activeVideo_of_track room.localParticipant _ t hb
    · exact htr
  · intro h
    unfold joinRoom
    rw [h]
    rfl

theorem C5_witness :
    ∃ setup, joinRoom false soloRoom initialAppState = Except.ok setup ∧
      setup.state.activeParticipant = some soloRoom.localParticipant ∧
      setup.state.dom.activeVideo
        = { attached := some videoTrackA.id, opacity := Opacity.blank } ∧
      setup.localVideoTrack = some videoTrackA :=
  (C5_solo_join false soloRoom initialAppState
    { kind := TrackKind.video, track := some videoTrackA } videoTrackA).1
    rfl rfl rfl rfl

/-- C6: the thumbnail click handler implements the specified pin toggle: it
agrees, whenever the pin invariant holds, with the handler transcribed from
the spec's own description (unpin — reset priority, clear flag, recompute
by the dominant-speaker rule — when the clicked participant is the pinned
active one; otherwise reset the previously pinned participant's priority if
any, request high priority on the clicked participant, set the flag, and
make it active). -/
theorem C6_click_pin_toggle (p : Participant) (room : Room) (s : AppState)
    (hinv : s.isActiveParticipantPinned = true → s.activeParticipant ≠ none) :
    containerClick p room s = Except.ok (clickPinToggleSpec p room s) := by
  unfold containerClick clickPinToggleSpec
  by_cases hc : s.activeParticipant = some p ∧ s.isActiveParticipantPinned = true
  · rw [if_pos hc, if_pos ⟨hc.2, hc.1⟩]
  · rw [if_neg hc, if_neg fun h => hc ⟨h.2, h.1⟩]
    cases hp : s.isActiveParticipantPinned with
    | false => rfl
    | true =>
      cases ha : s.activeParticipant with
      | none => exact absurd ha (hinv hp)
      | some q => rfl

theorem C6_witness :
    containerClick partB demoRoom demoStatePinnedB
      = Except.ok (clickPinToggleSpec partB demoRoom demoStatePinnedB) :=
  C6_click_pin_toggle partB demoRoom demoStatePinnedB fun _ hz => Option.noConfusion hz

theorem foldl_participantDisconnected_stoppedTracks (room : Room)
    (ps : List Participant) : ∀ s : AppState,
    (ps.foldl (fun s q => participantDisconnected q room s) s).stoppedTracks
      = s.stoppedTracks := by
  induction ps with
  | nil => intro s; rfl
  | cons q ps ih =>
    intro s
    rw [List.foldl_cons, ih, participantDisconnected_stoppedTracks]

theorem foldl_participantDisconnected_onbeforeunload (room : Room)
    (ps : List Participant) : ∀ s : AppState,
    (ps.foldl (fun s q => participantDisconnected q room s) s).onbeforeunload
      = s.onbeforeunload := by
  induction ps with
  | nil => intro s; rfl
  | cons q ps ih =>
    intro s
    rw [List.foldl_cons, ih, participantDisconnected_onbeforeunload]

theorem foldl_participantDisconnected_onpagehide (room : Room)
    (ps : List Participant) : ∀ s : AppState,
    (ps.foldl (fun s q => participantDisconnected q room s) s).onpagehide
      = s.onpagehide := by
  induction ps with
  | nil => intro s; rfl
  | cons q ps ih =>
    intro s
    rw [List.foldl_cons, ih, participantDisconnected_onpagehide]

theorem foldl_participantDisconnected_onvisibilitychange (room : Room)
    (ps : List Participant) : ∀ s : AppState,
    (ps.foldl (fun s q => participantDisconnected q room s) s).onvisibilitychange
      = s.onvisibilitychange := by
  induction ps with
  | nil => intro s; rfl
  | cons q ps ih =>
    intro s
    rw [List.foldl_cons, ih, participantDisconnected_onvisibilitychange]

theorem foldl_participantDisconnected_sids (room : Room) :
    ∀ (ps : List Participant) (s : AppState),
    (∀ x ∈ sidsOf s.dom, ∃ q ∈ ps, x = q.sid) →
    sidsOf ((ps.foldl (fun s q => participantDisconnected q room s) s)).dom = [] := by
  intro ps
  induction ps with
  | nil =>
    intro s h
    cases hs : sidsOf s.dom with
    | nil => exact hs
    | cons x xs =>
      obtain ⟨q, hq, _⟩ := h x (by rw [hs]; exact List.mem_cons_self x xs)
      exact absurd hq (List.not_mem_nil q)
  | cons q ps ih =>
    intro s h
    rw [List.foldl_cons]
    apply ih
    intro x hx
    rw [sidsOf_participantDisconnected] at hx
    have hmem := List.mem_filter.mp hx
    obtain ⟨r, hr, hxr⟩ := h x hmem.1
    rcases List.mem_cons.mp hr with hrq | hr'
    · exfalso
      have hb := hmem.2
      rw [hxr, hrq] at hb
      simp at hb
    · exact ⟨r, hr', hxr⟩

theorem teardownState_props (room : Room) (t : Track) (s : AppState)
    (hcont : ∀ c ∈ s.dom.containers, c.sid = room.localParticipant.sid ∨
      ∃ q ∈ room.participants, c.sid = q.sid) :
    (teardownState room t s).dom.containers = [] ∧
    (teardownState room t s).dom.activeVideo.attached = none ∧
    (teardownState room t s).stoppedTracks = s.stoppedTracks ++ [t.id] ∧
    (teardownState room t s).onbeforeunload = s.onbeforeunload ∧
    (teardownState room t s).onpagehide = s.onpagehide ∧
    (teardownState room t s).onvisibilitychange = s.onvisibilitychange := by
  have hsids : ∀ x ∈ sidsOf s.dom, x = room.localParticipant.sid ∨
      ∃ q ∈ room.participants, x = q.sid := by
    intro x hx
    obtain ⟨c, hcmem, hcx⟩ := List.mem_map.mp hx
    rcases hcont c hcmem with h1 | ⟨q, hq, h2⟩
    · left
      rw [← hcx, h1]
    · right
      exact ⟨q, hq, by rw [← hcx, h2]⟩
  have hfold : sidsOf ((room.participants.foldl
      (fun s q => participantDisconnected q room s)
      (participantDisconnected room.localParticipant room
        { s with stoppedTracks := s.stoppedTracks ++ [t.id] }))).dom = [] := by
    apply foldl_participantDisconnected_sids room room.participants
    intro x hx
    rw [sidsOf_participantDisconnected] at hx
    have hmem := List.mem_filter.mp hx
    have hm1 : x ∈ sidsOf s.dom := hmem.1
    rcases hsids x hm1 with h1 | h2
    · exfalso
      have hb := hmem.2
      rw [h1] at hb
      simp at hb
    · exact h2
  refine ⟨?_, rfl, ?_, ?_, ?_, ?_⟩
  · cases hl : ((room.participants.foldl
        (fun s q => participantDisconnected q room s)
        (participantDisconnected room.localParticipant room
          { s with stoppedTracks := s.stoppedTracks ++ [t.id] }))).dom.containers with
    | nil => exact hl
    | cons c cs =>
      exfalso
      unfold sidsOf at hfold
      rw [hl] at hfold
      simp at hfold
  · exact (foldl_participantDisconnected_stoppedTracks room room.participants _).trans
      (participantDisconnected_stoppedTracks _ room _)
  · exact (foldl_participantDisconnected_onbeforeunload room room.participants _).trans
      (participantDisconnected_onbeforeunload _ room _)
  · exact (foldl_participantDisconnected_onpagehide room room.participants _).trans
      (participantDisconnected_onpagehide _ room _)
  · exact (foldl_participantDisconnected_onvisibilitychange room room.participants _).trans
      (participantDisconnected_onvisibilitychange _ room _)

/-- C7: the `disconnected` handler is the single teardown path shared by an
explicit leave (no error) and an SDK-level failure (error delivered): when
every container belongs to the local or a remote participant, it stops the
saved local video track, removes every participant container, clears the
main surface's media reference, detaches the window/document lifecycle
listeners, and settles the `joinRoom` promise — rejecting with the error
exactly when one was delivered and resolving with no value otherwise. -/
theorem C7_single_teardown_path (isMobile : Bool) (room : Room) (t : Track)
    (error : Option TwilioError) (s : AppState)
    (hcont : ∀ c ∈ s.dom.containers, c.sid = room.localParticipant.sid ∨
      ∃ q ∈ room.participants, c.sid = q.sid) :
    ∃ s', roomDisconnected isMobile room (some t) error s = Except.ok
        (s', match error with
          | some e => Except.error e
          | none => Except.ok ()) ∧
      s'.dom.containers = [] ∧
      s'.dom.activeVideo.attached = none ∧
      s'.stoppedTracks = s.stoppedTracks ++ [t.id] ∧
      s'.onbeforeunload = false ∧
      (isMobile = true → s'.onpagehide = false ∧ s'.onvisibilitychange = false) := by
  cases isMobile with
  | false =>
    obtain ⟨h1, h2, h3, h4, _, _⟩ := teardownState_props room t
      { s with onbeforeunload := false } hcont
    refine ⟨teardownState room t { s with onbeforeunload := false },
      ?_, h1, h2, h3, h4, ?_⟩
    · unfold roomDisconnected
      cases error <;> rfl
    · intro h
      exact absurd h Bool.false_ne_true
  | true =>
    obtain ⟨h1, h2, h3, h4, h5, h6⟩ := teardownState_props room t
      { { s with onbeforeunload := false } with
        onpagehide := false, onvisibilitychange := false } hcont
    refine ⟨teardownState room t
      { { s with onbeforeunload := false } with
        onpagehide := false, onvisibilitychange := false },
      ?_, h1, h2, h3, h4, ?_⟩
    · unfold roomDisconnected
      cases error <;> rfl
    · intro _
      exact ⟨h5, h6⟩

theorem C7_witness :
    ∃ s', roomDisconnected false demoRoom (some videoTrackA) (some 20104) demoState
        = Except.ok (s', Except.error 20104) ∧
      s'.dom.containers = [] ∧
      s'.dom.activeVideo.attached = none ∧
      s'.stoppedTracks = demoState.stoppedTracks ++ [videoTrackA.id] ∧
      s'.onbeforeunload = false := by
  obtain ⟨s', he, h1, h2, h3, h4, _⟩ := C7_single_teardown_path false demoRoom
    videoTrackA (some 20104) demoState (by decide)
  exact ⟨s', he, h1, h2, h3, h4⟩
